import Mathlib

/-!
Verification of the date-to-queue routing and archive-listing logic of
scripts/reprocess.py (m-lab/etl).

The script's data is shallowly embedded: calendar dates are a structure of
three naturals; the CPython calendar helpers that back datetime.date.toordinal
(_is_leap, _days_in_month, _days_before_month, _days_before_year, _ymd2ord)
are translated literally; the google-cloud-storage listing call and the
argparse surface are modelled as pure functions over explicit inputs.
-/

/-- A calendar date: year, month, day, with no time-of-day component.
Mirrors datetime.date as used throughout scripts/reprocess.py. -/
structure Date where
  year : Nat
  month : Nat
  day : Nat
deriving DecidableEq

/-- Leap-year test, translated from CPython datetime._is_leap:
year % 4 == 0 and (year % 100 != 0 or year % 400 == 0). -/
def isLeap (y : Nat) : Bool :=
  y % 4 == 0 && (y % 100 != 0 || y % 400 == 0)

/-- Days in a month, translated from CPython datetime._days_in_month
(table _DAYS_IN_MONTH plus the February leap adjustment). -/
def daysInMonth (y m : Nat) : Nat :=
  if m = 2 then (if isLeap y then 29 else 28)
  else if m = 4 ∨ m = 6 ∨ m = 9 ∨ m = 11 then 30
  else 31

/-- Days in the year strictly before month m, translated from CPython
datetime._days_before_month: _DAYS_BEFORE_MONTH[month] plus one when
month > 2 in a leap year. -/
def daysBeforeMonth (y m : Nat) : Nat :=
  (match m with
   | 1 => 0 | 2 => 31 | 3 => 59 | 4 => 90 | 5 => 120 | 6 => 151
   | 7 => 181 | 8 => 212 | 9 => 243 | 10 => 273 | 11 => 304 | _ => 334)
  + (if 2 < m ∧ isLeap y = true then 1 else 0)

/-- Days before January 1st of year y, translated from CPython
datetime._days_before_year: y' = y - 1; y'*365 + y'//4 - y'//100 + y'//400.
The natural subtraction never truncates because y'/100 ≤ y'*365 + y'/4. -/
def daysBeforeYear (y : Nat) : Nat :=
  (y - 1) * 365 + (y - 1) / 4 - (y - 1) / 100 + (y - 1) / 400

/-- Proleptic Gregorian ordinal of a date, translated from CPython
datetime._ymd2ord (the implementation of date.toordinal, which
post_whole_day calls): days_before_year + days_before_month + day.
January 1 of year 1 has ordinal 1. -/
def toordinal (d : Date) : Nat :=
  daysBeforeYear d.year + daysBeforeMonth d.year d.month + d.day

/-- A date that datetime.date actually admits: month in 1..12 and day in
1..days_in_month, year at least MINYEAR = 1. -/
def ValidDate (d : Date) : Prop :=
  1 ≤ d.year ∧ 1 ≤ d.month ∧ d.month ≤ 12 ∧ 1 ≤ d.day ∧
    d.day ≤ daysInMonth d.year d.month

instance : DecidablePred ValidDate := fun d => by
  unfold ValidDate; infer_instance

/-- Little-endian decimal digits of n, with explicit fuel (the fuel makes the
recursion on n / 10 structural; any fuel above n gives the same digits). -/
def natDigitsAux (fuel n : Nat) : List Nat :=
  match fuel with
  | 0 => []
  | f + 1 => if n = 0 then [] else n % 10 :: natDigitsAux f (n / 10)

/-- Decimal rendering of a natural number, most significant digit first,
as Python str() renders a nonnegative int. -/
def natRepr (n : Nat) : String :=
  if n = 0 then "0"
  else ⟨((natDigitsAux (n + 1) n).map Nat.digitChar).reverse⟩

/-- Decimal rendering of an integer, as Python str() renders an int. -/
def pyIntRepr (i : Int) : String :=
  if i < 0 then "-" ++ natRepr i.natAbs else natRepr i.toNat

/-- The queue name computed by ArchiveProcessor.post_whole_day
(scripts/reprocess.py lines 149-152):
queue_name = self.queue_base; if self.num_queues > 1:
queue_name = queue_base + "_" + str(date.toordinal() % num_queues).
There is no other branch: no input makes the method raise. -/
def post_whole_day_queue_name (queue_base : String) (num_queues : Int)
    (d : Date) : String :=
  if 1 < num_queues then
    queue_base ++ "_" ++ pyIntRepr ((toordinal d : Int) % num_queues)
  else queue_base

/-- Zero-padded decimal rendering of width w, as Python percent-style
date formatting pads month and day to two digits and the year to four. -/
def padNum (w n : Nat) : String :=
  ⟨List.replicate (w - (natRepr n).length) '0'⟩ ++ natRepr n

/-- The strftime fragment "%Y/%m/%d" applied to a date: four-digit year,
two-digit month, two-digit day, slash-separated. -/
def date_path (d : Date) : String :=
  padNum 4 d.year ++ "/" ++ padNum 2 d.month ++ "/" ++ padNum 2 d.day

/-- The listing path built by ArchiveProcessor.list_date (line 128):
'{}{:%Y/%m/%d}'.format(self.file_prefix, date). -/
def list_date_pref (filePref : String) (d : Date) : String :=
  filePref ++ date_path d

/-- String s starts with string p (computed on the underlying character
lists, so that concrete instances evaluate in the kernel). -/
def strStartsWith (s p : String) : Bool :=
  p.data.isPrefixOf s.data

/-- Model of google-cloud-storage Bucket.list_blobs(prefix=p,
max_results=k): the keys of the bucket that start with p, truncated to at
most k results in total — in the library pinned by this script max_results
caps the whole iteration, not the page size. -/
def list_blobs_result (objects : List String) (p : String)
    (maxResults : Nat) : List String :=
  (objects.filter (fun o => strStartsWith o p)).take maxResults

/-- The iterator's pages: the result list cut into server-sized chunks.
Fuel makes the recursion structural; it is called with fuel = length. -/
def chunkPages (pageSize : Nat) : Nat → List String → List (List String)
  | 0, _ => []
  | _, [] => []
  | fuel + 1, l => l.take pageSize :: chunkPages pageSize fuel (l.drop pageSize)

/-- The object names printed by ArchiveProcessor.list_date (lines 121-138):
it builds the prefix, asks the store with max_results=10, then exhausts
every page of the iterator in order (for p in it.pages: while p.remaining >
0: print p.next()).  The method itself returns None; this definition
captures the sequence of names it walks. -/
def list_date_output (pageSize : Nat) (objects : List String)
    (filePref : String) (d : Date) : List String :=
  let items := list_blobs_result objects (list_date_pref filePref d) 10
  (chunkPages pageSize items.length items).flatten

/-- Outcome of ArchiveProcessor.__init__ (lines 92-107): either the
constructor returns normally (carrying the resolved bucket, or none when
the NotFound branch ran) or an exception escapes it. -/
inductive InitResult where
  | ok (bucket : Option String)
  | raised (e : String)
deriving DecidableEq

/-- ArchiveProcessor.__init__ (lines 92-107): try to resolve the bucket;
on exceptions.NotFound it prints 'Oops no bucket' and falls through, so
construction always completes normally — with no bucket attribute set when
the bucket does not exist. -/
def archiveProcessor_init (buckets : List String) (bucketName : String) :
    InitResult :=
  if bucketName ∈ buckets then .ok (some bucketName) else .ok none

/-- Predecessor of a calendar date.  Models the external stdlib semantics
of date - timedelta(days=1): decrement the day, rolling over month and
year boundaries. -/
def prevDay (d : Date) : Date :=
  if 2 ≤ d.day then ⟨d.year, d.month, d.day - 1⟩
  else if 2 ≤ d.month then ⟨d.year, d.month - 1, daysInMonth d.year (d.month - 1)⟩
  else ⟨d.year - 1, 12, 31⟩

/-- The flag values main works with after parse_cmdline succeeds. -/
structure ParsedArgs where
  project : String
  queue_base : String
  modN : Int
  bucket : String
  filePref : String
  start_date : Date
  end_date : Date
deriving DecidableEq

/-- The command line actually given: none for a flag that was omitted.
The two date flags carry the raw string argparse hands to the type
converter; modN is taken already int-converted. -/
structure CmdArgs where
  project : Option String
  queue_base : Option String
  modN : Option Int
  bucket : Option String
  filePref : Option String
  start_date : Option String
  end_date : Option String

/-- Model of datetime.datetime.strptime(s, "%Y%m%d") as parse_cmdline uses
it: four year digits, two month digits, two day digits, all digits, and
the resulting date must be one datetime admits; otherwise ValueError,
rendered as none. -/
def strptime_Ymd (s : String) : Option Date :=
  match s.data with
  | [y1, y2, y3, y4, m1, m2, d1, d2] =>
    if (y1.isDigit && y2.isDigit && y3.isDigit && y4.isDigit &&
        m1.isDigit && m2.isDigit && d1.isDigit && d2.isDigit) then
      let y := ((((y1.toNat - 48) * 10 + (y2.toNat - 48)) * 10
                  + (y3.toNat - 48)) * 10 + (y4.toNat - 48))
      let m := (m1.toNat - 48) * 10 + (m2.toNat - 48)
      let dy := (d1.toNat - 48) * 10 + (d2.toNat - 48)
      if ValidDate ⟨y, m, dy⟩ then some ⟨y, m, dy⟩ else none
    else none
  | _ => none

/-- parse_cmdline (scripts/reprocess.py lines 25-86).  Every flag is
optional with a default; argparse passes a string default through the
flag's type converter exactly as it does a supplied value, so the
start_date default '' and end_date default '00010101' also go through
strptime.  A converter raising ValueError makes the whole parse fail. -/
def parse_cmdline (a : CmdArgs) : Option ParsedArgs :=
  match strptime_Ymd (a.start_date.getD "") with
  | none => none
  | some sd =>
    match strptime_Ymd (a.end_date.getD "00010101") with
    | none => none
    | some ed =>
      some { project := a.project.getD "mlab-oti"
             queue_base := a.queue_base.getD "etl-ndt-batch"
             modN := a.modN.getD 5
             bucket := a.bucket.getD "archive-mlab-oti"
             filePref := a.filePref.getD "mlab-storage-scraper-test"
             start_date := sd
             end_date := ed }

/-- The external object store as main sees it: which buckets exist, the
keys each bucket holds, and the page size the server chooses. -/
structure Store where
  buckets : List String
  objects : String → List String
  pageSize : Nat

/-- What one run of main did: whether get_bucket succeeded, which days
were listed, and the object names walked. -/
structure MainOutcome where
  bucketOk : Bool
  listedDays : List Date
  listed : List String
deriving DecidableEq

/-- main (scripts/reprocess.py lines 155-164): builds
ArchiveProcessor(args.bucket, "ndt/", "base", 5) — the literals, not
args.prefix / args.queue_base / args.modN — then lists the single day
today - timedelta(days=2).  When the bucket was not found, __init__
swallowed NotFound and left self.bucket unset, so the following
'print processor.bucket' raises AttributeError (not caught by the
except NotFound in main) and nothing is listed. -/
def main_run (args : ParsedArgs) (today : Date) (store : Store) :
    MainOutcome :=
  match archiveProcessor_init store.buckets args.bucket with
  | .ok (some b) =>
    let day := prevDay (prevDay today)
    { bucketOk := true
      listedDays := [day]
      listed := list_date_output store.pageSize (store.objects b) "ndt/" day }
  | .ok none => { bucketOk := false, listedDays := [], listed := [] }
  | .raised _ => { bucketOk := false, listedDays := [], listed := [] }

/-- Spec-side rendering of an ObjectPrefix, following the spec's words: a
configured base prefix concatenated with the date formatted as YYYY/MM/DD
(four-digit year, two-digit zero-padded month and day, slash-separated). -/
def objectPrefixSpec (basePref : String) (d : Date) : String :=
  basePref ++ padNum 4 d.year ++ "/" ++ padNum 2 d.month ++ "/" ++ padNum 2 d.day

/-- The 23 object names of the pagination scenario: all under the
2017/10/25 prefix of the ndt/ archive. -/
def sample_objects : List String :=
  (List.range 23).map (fun i => "ndt/2017/10/25/file" ++ natRepr i)

/-! ### Helper lemmas: decimal rendering is injective -/

theorem natDigitsAux_fuel (n : Nat) : ∀ f g, n < f → n < g →
    natDigitsAux f n = natDigitsAux g n := by
  induction n using Nat.strong_induction_on with
  | _ n ih =>
    intro f g hf hg
    cases f with
    | zero => omega
    | succ f =>
      cases g with
      | zero => omega
      | succ g =>
        simp only [natDigitsAux]
        by_cases h0 : n = 0
        · simp [h0]
        · simp only [h0, if_false]
          have hlt : n / 10 < n := Nat.div_lt_self (Nat.pos_of_ne_zero h0) (by omega)
          rw [ih (n / 10) hlt f (n / 10 + 1) (by omega) (by omega),
              ih (n / 10) hlt g (n / 10 + 1) (by omega) (by omega)]

theorem natDigitsAux_lt_ten : ∀ f n : Nat, ∀ d ∈ natDigitsAux f n, d < 10 := by
  intro f
  induction f with
  | zero => intro n d hd; simp [natDigitsAux] at hd
  | succ f ih =>
    intro n d hd
    simp only [natDigitsAux] at hd
    by_cases h0 : n = 0
    · simp [h0] at hd
    · simp only [h0, if_false, List.mem_cons] at hd
      rcases hd with h | h
      · omega
      · exact ih (n / 10) d h

theorem digitChar_inj_lt : ∀ x < 10, ∀ y < 10,
    Nat.digitChar x = Nat.digitChar y → x = y := by decide

theorem map_digitChar_inj : ∀ l1 l2 : List Nat, (∀ d ∈ l1, d < 10) →
    (∀ d ∈ l2, d < 10) → l1.map Nat.digitChar = l2.map Nat.digitChar →
    l1 = l2 := by
  intro l1
  induction l1 with
  | nil => intro l2 _ _ h; cases l2 <;> simp_all
  | cons a t ih =>
    intro l2 h1 h2 h
    cases l2 with
    | nil => simp at h
    | cons b t2 =>
      simp only [List.map_cons, List.cons.injEq] at h
      obtain ⟨hab, ht⟩ := h
      have hd := digitChar_inj_lt a (h1 a (by simp)) b (h2 b (by simp)) hab
      have hts := ih t2 (fun d hd => h1 d (by simp [hd]))
        (fun d hd => h2 d (by simp [hd])) ht
      rw [hd, hts]

theorem natDigitsAux_core_inj : ∀ a b : Nat, a ≠ 0 → b ≠ 0 →
    natDigitsAux (a + 1) a = natDigitsAux (b + 1) b → a = b := by
  intro a
  induction a using Nat.strong_induction_on with
  | _ a ih =>
    intro b ha hb h
    simp only [natDigitsAux, ha, hb, if_false, List.cons.injEq] at h
    obtain ⟨hmod, htail⟩ := h
    have hlta : a / 10 < a := Nat.div_lt_self (Nat.pos_of_ne_zero ha) (by omega)
    have hltb : b / 10 < b := Nat.div_lt_self (Nat.pos_of_ne_zero hb) (by omega)
    rw [natDigitsAux_fuel (a / 10) a (a / 10 + 1) hlta (by omega),
        natDigitsAux_fuel (b / 10) b (b / 10 + 1) hltb (by omega)] at htail
    by_cases h10 : a / 10 = 0
    · by_cases h20 : b / 10 = 0
      · omega
      · exfalso
        rw [h10] at htail
        simp only [natDigitsAux, h20, if_false] at htail
        exact absurd htail.symm (by simp)
    · by_cases h20 : b / 10 = 0
      · exfalso
        rw [h20] at htail
        simp only [natDigitsAux, h10, if_false] at htail
        exact absurd htail (by simp)
      · have := ih (a / 10) hlta (b / 10) h10 h20 htail
        omega

theorem natRepr_ne_zero_str {b : Nat} (hb : b ≠ 0) : natRepr b ≠ "0" := by
  intro h
  unfold natRepr at h
  rw [if_neg hb] at h
  have hd := congrArg String.data h
  simp only [String.data] at hd
  have h1 : (natDigitsAux (b + 1) b).map Nat.digitChar = ['0'] := by
    have := congrArg List.reverse hd
    simpa using this
  have h2 : ∃ d, natDigitsAux (b + 1) b = [d] ∧ Nat.digitChar d = '0' := by
    cases hx : natDigitsAux (b + 1) b with
    | nil => rw [hx] at h1; simp at h1
    | cons d t =>
      rw [hx] at h1
      cases t with
      | nil => exact ⟨d, rfl, by simpa using h1⟩
      | cons e t2 => simp at h1
  obtain ⟨d, hlist, hchar⟩ := h2
  simp only [natDigitsAux, hb, if_false, List.cons.injEq] at hlist
  obtain ⟨hdm, htail⟩ := hlist
  have hb10 : b / 10 = 0 := by
    by_contra hne
    have hfuel : 1 ≤ b := Nat.pos_of_ne_zero hb
    cases hbb : b with
    | zero => exact hb hbb
    | succ b' =>
      rw [hbb] at htail
      simp only [natDigitsAux, hne, if_false] at htail
      rw [hbb] at hne
      simp [hne] at htail
  have hlt : b % 10 < 10 := by omega
  have : b % 10 = 0 := by
    apply digitChar_inj_lt (b % 10) hlt 0 (by omega)
    rw [← hdm] at hchar
    simpa using hchar
  omega

theorem natRepr_inj {a b : Nat} (h : natRepr a = natRepr b) : a = b := by
  by_cases ha : a = 0
  · by_cases hb : b = 0
    · omega
    · exfalso
      apply natRepr_ne_zero_str hb
      rw [← h, ha]
      rfl
  · by_cases hb : b = 0
    · exfalso
      apply natRepr_ne_zero_str ha
      rw [h, hb]
      rfl
    · unfold natRepr at h
      rw [if_neg ha, if_neg hb] at h
      have hd := congrArg String.data h
      simp only [String.data, List.reverse_inj] at hd
      exact natDigitsAux_core_inj a b ha hb
        (map_digitChar_inj _ _ (natDigitsAux_lt_ten _ _) (natDigitsAux_lt_ten _ _) hd)

theorem pyIntRepr_inj_nonneg {a b : Int} (ha : 0 ≤ a) (hb : 0 ≤ b)
    (h : pyIntRepr a = pyIntRepr b) : a = b := by
  unfold pyIntRepr at h
  rw [if_neg (by omega), if_neg (by omega)] at h
  have := natRepr_inj h
  omega

theorem string_append_cancel {a b c : String} (h : a ++ b = a ++ c) :
    b = c := by
  have hd := congrArg String.data h
  simp only [String.data_append] at hd
  exact String.ext (List.append_cancel_left hd)

/-! ### Helper lemmas: the ordinal decreases by one across prevDay -/

theorem isLeap_iff (z : Nat) :
    isLeap z = true ↔ (z % 4 = 0 ∧ (¬ z % 100 = 0 ∨ z % 400 = 0)) := by
  simp [isLeap]

set_option maxHeartbeats 1000000 in
theorem daysBeforeYear_step_common (y : Nat) (hy : 2 ≤ y)
    (hL : isLeap (y - 1) = false) :
    daysBeforeYear y = daysBeforeYear (y - 1) + 365 := by
  have hL' : ¬ ((y - 1) % 4 = 0 ∧ (¬ (y - 1) % 100 = 0 ∨ (y - 1) % 400 = 0)) := by
    rw [← isLeap_iff]
    simp [hL]
  unfold daysBeforeYear
  omega

set_option maxHeartbeats 1000000 in
theorem daysBeforeYear_step_leap (y : Nat) (hy : 2 ≤ y)
    (hL : isLeap (y - 1) = true) :
    daysBeforeYear y = daysBeforeYear (y - 1) + 366 := by
  have hL' := (isLeap_iff (y - 1)).mp hL
  unfold daysBeforeYear
  omega

theorem daysBeforeMonth_succ (y m : Nat) (h2 : 2 ≤ m) (h12 : m ≤ 12) :
    daysBeforeMonth y m = daysBeforeMonth y (m - 1) + daysInMonth y (m - 1) := by
  interval_cases m <;>
    cases hL : isLeap y <;>
      simp [daysBeforeMonth, daysInMonth, hL]

theorem daysInMonth_pos (y m : Nat) : 1 ≤ daysInMonth y m := by
  unfold daysInMonth
  split_ifs <;> omega

theorem toordinal_prevDay (d : Date) (hv : ValidDate d)
    (hmin : d ≠ ⟨1, 1, 1⟩) : toordinal (prevDay d) + 1 = toordinal d := by
  obtain ⟨y, m, day⟩ := d
  simp only [ValidDate] at hv
  obtain ⟨hy, hm1, hm2, hd1, hd2⟩ := hv
  simp only [ne_eq, Date.mk.injEq, not_and] at hmin
  simp only [prevDay]
  split_ifs with h1 h2
  · simp only [toordinal]
    omega
  · simp only [toordinal]
    have hstep := daysBeforeMonth_succ y m h2 hm2
    omega
  · have hy2 : 2 ≤ y := by
      by_contra hc
      exact hmin (by omega) (by omega) (by omega)
    simp only [toordinal]
    have hDBM1 : daysBeforeMonth y m = 0 := by
      have hm' : m = 1 := by omega
      simp [hm', daysBeforeMonth]
    cases hL : isLeap (y - 1) with
    | false =>
      have h5 := daysBeforeYear_step_common y hy2 hL
      have hDBM12 : daysBeforeMonth (y - 1) 12 = 334 := by
        simp [daysBeforeMonth, hL]
      omega
    | true =>
      have h5 := daysBeforeYear_step_leap y hy2 hL
      have hDBM12 : daysBeforeMonth (y - 1) 12 = 335 := by
        simp [daysBeforeMonth, hL]
      omega

theorem validDate_prevDay (d : Date) (hv : ValidDate d)
    (hmin : d ≠ ⟨1, 1, 1⟩) : ValidDate (prevDay d) := by
  obtain ⟨y, m, day⟩ := d
  simp only [ValidDate] at hv
  obtain ⟨hy, hm1, hm2, hd1, hd2⟩ := hv
  simp only [ne_eq, Date.mk.injEq, not_and] at hmin
  simp only [prevDay]
  split_ifs with h1 h2
  · simp only [ValidDate]
    exact ⟨hy, hm1, hm2, by omega, by omega⟩
  · simp only [ValidDate]
    exact ⟨hy, by omega, by omega, daysInMonth_pos y (m - 1), le_refl _⟩
  · have hy2 : 2 ≤ y := by
      by_contra hc
      exact hmin (by omega) (by omega) (by omega)
    simp only [ValidDate]
    refine ⟨by omega, by omega, by omega, by omega, ?_⟩
    simp [daysInMonth]

theorem toordinal_min : toordinal ⟨1, 1, 1⟩ = 1 := by decide

theorem toordinal_ge_one (d : Date) (hv : ValidDate d) : 1 ≤ toordinal d := by
  obtain ⟨-, -, -, hd1, -⟩ := hv
  simp only [toordinal]
  omega

/-! ### Claim theorems -/

/-- Claim C1: for every date d, base queue name, and queue count N > 1,
post_whole_day computes the queue name as the base name, an underscore,
and the decimal rendering of (proleptic Gregorian ordinal of d) mod N. -/
theorem post_whole_day_routes_by_ordinal_mod (d : Date) (base : String)
    (N : Int) (hN : 1 < N) :
    post_whole_day_queue_name base N d
      = base ++ "_" ++ natRepr (toordinal d % N.toNat) := by
  unfold post_whole_day_queue_name
  rw [if_pos hN]
  congr 1
  have hN0 : 0 ≤ N := by omega
  have hmod : ((toordinal d : Int) % N) = ((toordinal d % N.toNat : Nat) : Int) := by
    conv_lhs => rw [← Int.toNat_of_nonneg hN0]
    rw [Int.ofNat_mod_ofNat]
  rw [pyIntRepr, hmod, if_neg (by omega), Int.toNat_natCast]

theorem post_whole_day_routes_by_ordinal_mod_witness :
    1 < (5 : Int) ∧
      post_whole_day_queue_name "etl-ndt-batch" 5 ⟨2017, 10, 25⟩
        = "etl-ndt-batch" ++ "_" ++ natRepr (toordinal ⟨2017, 10, 25⟩ % (5 : Int).toNat) :=
  ⟨by decide,
   post_whole_day_routes_by_ordinal_mod ⟨2017, 10, 25⟩ "etl-ndt-batch" 5 (by decide)⟩

/-- Claim C2: for every date and every queue count N ≤ 1 (0 and 1
included), post_whole_day leaves the queue name as the base name, with no
suffix. -/
theorem post_whole_day_single_queue (d : Date) (base : String) (N : Int)
    (hN : N ≤ 1) : post_whole_day_queue_name base N d = base := by
  unfold post_whole_day_queue_name
  rw [if_neg (by omega)]

theorem post_whole_day_single_queue_witness :
    (1 : Int) ≤ 1 ∧
      post_whole_day_queue_name "etl-ndt-batch" 1 ⟨2017, 10, 25⟩ = "etl-ndt-batch" :=
  ⟨by decide, post_whole_day_single_queue ⟨2017, 10, 25⟩ "etl-ndt-batch" 1 (by decide)⟩

/-- Claim C5, counterexample: called with the negative queue count -3, the
routing operation does not fail — it returns a queue name (the base name),
so no InvalidConfiguration error exists anywhere in its code path. -/
theorem post_whole_day_negative_count_counterexample :
    post_whole_day_queue_name "etl-ndt-batch" (-3) ⟨2017, 10, 25⟩
      = "etl-ndt-batch" := by decide

/-- Claim C5, amended: for every date, base name and queue count N < 0,
post_whole_day succeeds and yields the base name unmodified, exactly as in
single-queue mode; it never fails. -/
theorem post_whole_day_negative_count_returns_base (d : Date) (base : String)
    (N : Int) (hN : N < 0) : post_whole_day_queue_name base N d = base := by
  unfold post_whole_day_queue_name
  rw [if_neg (by omega)]

theorem post_whole_day_negative_count_returns_base_witness :
    (-7 : Int) < 0 ∧
      post_whole_day_queue_name "etl-ndt-batch" (-7) ⟨2017, 10, 25⟩ = "etl-ndt-batch" :=
  ⟨by decide,
   post_whole_day_negative_count_returns_base ⟨2017, 10, 25⟩ "etl-ndt-batch" (-7) (by decide)⟩

/-- Claim C4, counterexample: constructing the processor against a store
in which the configured bucket does not exist returns normally (ok with no
bucket set) instead of failing — the NotFound error is caught, printed and
swallowed inside the constructor. -/
theorem init_missing_bucket_counterexample :
    archiveProcessor_init [] "archive-mlab-oti" = InitResult.ok none ∧
      archiveProcessor_init ["some-other-bucket"] "archive-mlab-oti"
        = InitResult.ok none := by decide

/-- Claim C4, amended: when the configured bucket does not exist, the
constructor catches the store's NotFound error, prints a diagnostic, and
completes normally with no bucket set; the error is not surfaced to the
caller. -/
theorem init_missing_bucket_swallows_notfound (buckets : List String)
    (name : String) (h : name ∉ buckets) :
    archiveProcessor_init buckets name = InitResult.ok none := by
  unfold archiveProcessor_init
  rw [if_neg h]

theorem init_missing_bucket_swallows_notfound_witness :
    "archive-mlab-oti" ∉ ["bucket-a", "bucket-b"] ∧
      archiveProcessor_init ["bucket-a", "bucket-b"] "archive-mlab-oti"
        = InitResult.ok none :=
  ⟨by decide,
   init_missing_bucket_swallows_notfound ["bucket-a", "bucket-b"] "archive-mlab-oti" (by decide)⟩

/-- Claim C7: for every date, the listing path built by list_date is the
configured base path followed by the date rendered as YYYY/MM/DD with a
four-digit year and two-digit zero-padded month and day. -/
theorem list_date_pref_matches_spec_format (basePref : String) (d : Date) :
    list_date_pref basePref d = objectPrefixSpec basePref d := by
  apply String.ext
  simp [list_date_pref, date_path, objectPrefixSpec, String.data_append]

/-- Claim C3, evaluation at the failing input: a store holding 23 objects
under the date's path, served in pages of 10.  The source passes
max_results=10 to list_blobs, which caps the whole listing, so the page
loop walks only 10 of the 23 objects. -/
theorem list_date_caps_results_at_ten :
    sample_objects.length = 23 ∧
      (sample_objects.filter
        (fun o => strStartsWith o (list_date_pref "ndt/" ⟨2017, 10, 25⟩))).length = 23 ∧
      (list_date_output 10 sample_objects "ndt/" ⟨2017, 10, 25⟩).length = 10 := by
  decide

/-- Claim C9: any command line that omits --start_date makes parse_cmdline
fail: argparse pushes the string default '' through the strptime type
converter, and strptime('', '%Y%m%d') raises, so the flag is optional in
name only. -/
theorem parse_cmdline_fails_without_start_date (a : CmdArgs)
    (h : a.start_date = none) : parse_cmdline a = none := by
  unfold parse_cmdline
  rw [h]
  rfl

theorem parse_cmdline_fails_without_start_date_witness :
    (CmdArgs.mk (some "mlab-oti") none (some 4) none none none
        (some "20171025")).start_date = none ∧
      parse_cmdline (CmdArgs.mk (some "mlab-oti") none (some 4) none none none
        (some "20171025")) = none :=
  ⟨rfl,
   parse_cmdline_fails_without_start_date
     (CmdArgs.mk (some "mlab-oti") none (some 4) none none none (some "20171025")) rfl⟩

/-- Claim C10: main ignores the parsed --prefix, --queue_base and --modN
values (it hard-codes "ndt/", "base" and 5), so two runs whose parsed
arguments differ only in those three flags produce identical outcomes. -/
theorem main_independent_of_unused_flags (a1 a2 : ParsedArgs) (today : Date)
    (store : Store) (_hproj : a1.project = a2.project)
    (hbucket : a1.bucket = a2.bucket) (_hstart : a1.start_date = a2.start_date)
    (_hend : a1.end_date = a2.end_date) :
    main_run a1 today store = main_run a2 today store := by
  unfold main_run
  rw [hbucket]

/-- Concrete argument records for the C10 witness: identical except in the
three unused flags. -/
def cargsA : ParsedArgs :=
  ⟨"mlab-oti", "etl-ndt-batch", 5, "archive-mlab-oti", "mlab-storage-scraper-test",
    ⟨2017, 10, 25⟩, ⟨1, 1, 1⟩⟩

def cargsB : ParsedArgs :=
  ⟨"mlab-oti", "other-queue", 11, "archive-mlab-oti", "other/",
    ⟨2017, 10, 25⟩, ⟨1, 1, 1⟩⟩

def cstore : Store :=
  ⟨["archive-mlab-oti"], fun _ => sample_objects, 10⟩

theorem main_independent_of_unused_flags_witness :
    (cargsA.project = cargsB.project ∧ cargsA.bucket = cargsB.bucket ∧
      cargsA.start_date = cargsB.start_date ∧ cargsA.end_date = cargsB.end_date) ∧
      (cargsA.queue_base ≠ cargsB.queue_base ∧ cargsA.modN ≠ cargsB.modN ∧
        cargsA.filePref ≠ cargsB.filePref) ∧
      main_run cargsA ⟨2017, 10, 27⟩ cstore = main_run cargsB ⟨2017, 10, 27⟩ cstore :=
  ⟨⟨rfl, rfl, rfl, rfl⟩, ⟨by decide, by decide, by decide⟩,
   main_independent_of_unused_flags cargsA cargsB ⟨2017, 10, 27⟩ cstore rfl rfl rfl rfl⟩

/-- Claim C8: with the end-date flag left at its unset sentinel (the
parsed date 0001-01-01), main lists exactly one calendar day, and that day
is two days before today: its ordinal is the ordinal of today minus 2. -/
theorem main_lists_single_day_two_before_today (args : ParsedArgs)
    (today : Date) (store : Store) (hb : args.bucket ∈ store.buckets)
    (_hend : args.end_date = ⟨1, 1, 1⟩) (hv : ValidDate today)
    (h3 : 3 ≤ toordinal today) :
    (main_run args today store).listedDays = [prevDay (prevDay today)] ∧
      toordinal (prevDay (prevDay today)) + 2 = toordinal today := by
  constructor
  · unfold main_run archiveProcessor_init
    rw [if_pos hb]
  · have hmin1 : today ≠ ⟨1, 1, 1⟩ := by
      intro h
      rw [h, toordinal_min] at h3
      omega
    have hstep1 := toordinal_prevDay today hv hmin1
    have hv1 := validDate_prevDay today hv hmin1
    have hmin2 : prevDay today ≠ ⟨1, 1, 1⟩ := by
      intro h
      rw [h, toordinal_min] at hstep1
      omega
    have hstep2 := toordinal_prevDay (prevDay today) hv1 hmin2
    omega

theorem main_lists_single_day_two_before_today_witness :
    (cargsA.bucket ∈ cstore.buckets ∧ cargsA.end_date = ⟨1, 1, 1⟩ ∧
      ValidDate ⟨2017, 10, 27⟩ ∧ 3 ≤ toordinal ⟨2017, 10, 27⟩) ∧
      (main_run cargsA ⟨2017, 10, 27⟩ cstore).listedDays
          = [prevDay (prevDay ⟨2017, 10, 27⟩)] ∧
        toordinal (prevDay (prevDay ⟨2017, 10, 27⟩)) + 2 = toordinal ⟨2017, 10, 27⟩ :=
  ⟨⟨by decide, rfl, by decide, by decide⟩,
   main_lists_single_day_two_before_today cargsA ⟨2017, 10, 27⟩ cstore
     (by decide) rfl (by decide) (by decide)⟩

/-- The five consecutive October 2017 days of the C6 witness. -/
def octDays (i : Nat) : Date := ⟨2017, 10, 25 + i⟩

/-- Claim C6: for every queue count N > 1 and base name, the queue names
post_whole_day computes over any N consecutive calendar days (dates whose
ordinals are consecutive) are pairwise distinct: exactly N names arise,
one per residue 0..N-1. -/
theorem post_whole_day_consecutive_days_distinct (base : String) (N : Int)
    (f : Nat → Date) (hN : 1 < N)
    (hf : ∀ i, i < N.toNat → toordinal (f i) = toordinal (f 0) + i) :
    (Finset.image (fun i => post_whole_day_queue_name base N (f i))
        (Finset.range N.toNat)).card = N.toNat := by
  rw [Finset.card_image_of_injOn, Finset.card_range]
  intro i hi j hj hij
  simp only [Finset.coe_range, Set.mem_Iio] at hi hj
  simp only [post_whole_day_queue_name, if_pos hN] at hij
  rw [hf i hi, hf j hj] at hij
  have hmods := pyIntRepr_inj_nonneg
    (Int.emod_nonneg _ (by omega)) (Int.emod_nonneg _ (by omega))
    (string_append_cancel hij)
  have hdvd : N ∣ ((toordinal (f 0) + i : Nat) : Int) - ((toordinal (f 0) + j : Nat) : Int) :=
    Int.dvd_of_emod_eq_zero (Int.emod_eq_emod_iff_emod_sub_eq_zero.mp hmods)
  have hsub : ((toordinal (f 0) + i : Nat) : Int) - ((toordinal (f 0) + j : Nat) : Int)
      = (i : Int) - (j : Int) := by
    push_cast
    ring
  rw [hsub] at hdvd
  have habs : |(i : Int) - (j : Int)| < N := by
    rw [abs_lt]
    constructor <;> omega
  have := Int.eq_zero_of_abs_lt_dvd hdvd habs
  omega

theorem post_whole_day_consecutive_days_distinct_witness :
    (1 < (5 : Int) ∧
      (∀ i, i < (5 : Int).toNat → toordinal (octDays i) = toordinal (octDays 0) + i)) ∧
      (Finset.image (fun i => post_whole_day_queue_name "etl-ndt-batch" 5 (octDays i))
          (Finset.range (5 : Int).toNat)).card = (5 : Int).toNat :=
  ⟨⟨by decide, by decide⟩,
   post_whole_day_consecutive_days_distinct "etl-ndt-batch" 5 octDays
     (by decide) (by decide)⟩
